import Mathlib

/-!
Verification of the rate-limit-aware Github access layer of this
repository: the module streamlit_github.py and its caller
streamlit_app.py.

Modelling conventions.  Python exceptions are values of the type
PyError, and fallible Python code returns Except PyError.  A remote call
that may behave differently on each invocation is modelled as a function
from an attempt index to an outcome.  The observable behaviour of a
wrapped operation (its final result, the number of calls made to the
underlying operation, and the durations handed to time.sleep) is
recorded in a RunResult.  The st.cache memoisation and the st.spinner
display are orthogonal to every claim treated here and are not modelled.
The regex class backslash-w of the URL patterns is modelled over ASCII,
as the letters, the digits and the underscore.
-/

/-- Exceptions of the modelled code.  rateLimited is
RateLimitExceededException; githubException msg is any other
GithubException whose data message is msg (UnknownObjectException, whose
message is "Not Found", is one of these); attributeError a is the
AttributeError raised when an attribute named a is missing;
runtimeError msg is RuntimeError; decodingError is UnicodeDecodeError;
valueError is the ValueError that time.sleep raises on a negative
duration. -/
inductive PyError where
  | rateLimited : PyError
  | githubException (message : String) : PyError
  | attributeError (attr : String) : PyError
  | runtimeError (message : String) : PyError
  | decodingError : PyError
  | valueError : PyError
deriving DecidableEq, Repr

/-- The path of a Github file, consisting of owner, repo, branch, and
path (class GithubCoords, streamlit_github.py lines 57 to 66). -/
structure GithubCoords where
  owner : String
  repo : String
  branch : String
  path : String
deriving DecidableEq, Repr

/-- The sleep duration computed by the decorator rate_limit
(streamlit_github.py lines 44 to 48) once a first attempt was rate
limited: with t the value of
(search_limit.reset - datetime.utcnow()).total_seconds(), the code
sleeps min (ceil (t + 1)) 60 seconds.  The source has no lower clamp. -/
def waitSeconds (t : ℚ) : ℤ := min ⌈t + 1⌉ 60

/-- Observable outcome of running an operation: the returned value or
uncaught exception, the number of invocations of the underlying
operation, and the durations handed to time.sleep, in order. -/
structure RunResult (α : Type) where
  result : Except PyError α
  calls : ℕ
  sleeps : List ℤ
deriving Repr

/-- The wrapped_func produced by the decorator rate_limit
(streamlit_github.py lines 37 to 52).  resetIn is the value of
(github.get_rate_limit().search.reset - datetime.utcnow()).total_seconds()
at the moment of the status query; attempts n is the outcome of the
n-th invocation of the wrapped function.  A successful first attempt is
returned at once.  Only RateLimitExceededException is caught, in which
case the guard computes waitSeconds resetIn and hands it to time.sleep:
when that duration is negative, time.sleep raises ValueError, which
nothing catches, so the run ends after the single first call with no
sleep and no retry; otherwise the guard sleeps and then returns
whatever the second attempt produces, its exceptions included.  Any
other exception propagates untouched, with no sleep and no retry. -/
def rateLimitRun (resetIn : ℚ) (attempts : ℕ → Except PyError α) : RunResult α :=
  match attempts 0 with
  | .ok a => ⟨.ok a, 1, []⟩
  | .error .rateLimited =>
    if waitSeconds resetIn < 0 then ⟨.error .valueError, 1, []⟩
    else ⟨attempts 1, 2, [waitSeconds resetIn]⟩
  | .error e => ⟨.error e, 1, []⟩

/-- get_repo (streamlit_github.py lines 149 to 154).  In the source it
is decorated with st.cache only: unlike from_access_token,
get_user_from_email and get_streamlit_files it carries no rate_limit
decorator, so the underlying client call
github.get_repo(f-string of owner, slash, repo) is invoked exactly once
and no sleep ever happens.  api slug n is the outcome of the n-th
invocation of the underlying call for the composed identifier slug. -/
def get_repoRun (api : String → ℕ → Except PyError α) (coords : GithubCoords) : RunResult α :=
  ⟨api (coords.owner ++ "/" ++ coords.repo) 0, 1, []⟩

/-- get_user_from_email (streamlit_github.py lines 116 to 127),
abstracted over the outcome of the search_users call: on no user None
is returned, on exactly one user that user, and on several users a
RuntimeError carrying the interpolated message is raised.  An exception
of the search itself propagates. -/
def get_user_from_email (email : String) (searched : Except PyError (List α)) : Except PyError (Option α) :=
  match searched with
  | .error e => .error e
  | .ok users =>
    if users.length = 0 then .ok none
    else if users.length = 1 then .ok users.head?
    else .error (.runtimeError (email ++ " associated with " ++ toString users.length ++ " users."))

/-- get_streamlit_files (streamlit_github.py lines 129 to 147),
abstracted over the outcome of the search_code call: a
RateLimitExceededException is re-raised; any other GithubException whose
data message is "Validation Failed" is swallowed and the normal result
of no files is returned; every other GithubException is re-raised; an
exception that is no GithubException is never caught. -/
def get_streamlit_files (searched : Except PyError (List α)) : Except PyError (List α) :=
  match searched with
  | .ok files => .ok files
  | .error .rateLimited => .error .rateLimited
  | .error (.githubException msg) =>
    if msg = "Validation Failed" then .ok [] else .error (.githubException msg)
  | .error e => .error e

/-- A fetch used by the theorems on get_repo: rate limited on the first
attempt, successful from the second attempt on. -/
def c4api : String → ℕ → Except PyError ℕ :=
  fun _ n => if n = 0 then .error .rateLimited else .ok 7

/-- The bracket class of the two URL patterns (streamlit_github.py
lines 73 to 79 and 93 to 99) holds backslash-w and the hyphen.  On str
patterns backslash-w is the full Unicode word class, whose property
tables cannot be spelled out here; the matcher below therefore takes
the class as a parameter w, and the theorems assume about it only
facts that hold of the real class: the slash and the dot are not in
it.  asciiWordChar is the ASCII part of the real class, the letters,
the digits, the underscore and the hyphen; on an input all of whose
characters are ASCII a run of the matcher under asciiWordChar
inspects only characters of the input and so coincides, character for
character, with its run under the real class. -/
def asciiWordChar (c : Char) : Bool := c.isAlphanum || c == '_' || c == '-'

/-- Semantics of a literal run of regex characters: consume exactly the
given characters from the front of the input and return the rest. -/
def matchLit : List Char → List Char → Option (List Char)
  | [], s => some s
  | _ :: _, [] => none
  | c :: cs, x :: xs => if x = c then matchLit cs xs else none

/-- Semantics of the unescaped regex dot (the dots inside the host
names of both patterns): without the DOTALL flag it consumes any
single character except the newline. -/
def matchAny : List Char → Option (List Char)
  | [] => none
  | x :: xs => if x = '\n' then none else some xs

/-- Semantics of the greedy nonempty repetition of the class w:
consume the maximal nonempty run of class characters.  In both
patterns every character that follows such a group (a slash or a dot)
is itself not in the class, so the regex engine never backtracks into
the group and the maximal run is exact. -/
def matchWordPlus (w : Char → Bool) (s : List Char) : Option (List Char × List Char) :=
  if s.takeWhile w = [] then none
  else some (s.takeWhile w, s.dropWhile w)

/-- The characters of the pattern before the first unescaped dot of the
app URL host. -/
def litShare : List Char := ['h', 't', 't', 'p', 's', ':', '/', '/', 's', 'h', 'a', 'r', 'e']

/-- The characters of the app URL pattern between its two unescaped
dots. -/
def litStreamlit : List Char := ['s', 't', 'r', 'e', 'a', 'm', 'l', 'i', 't']

/-- The characters of the app URL pattern after its second unescaped
dot. -/
def litIoSlash : List Char := ['i', 'o', '/']

/-- The characters of the repository URL pattern before its unescaped
dot. -/
def litGithub : List Char := ['h', 't', 't', 'p', 's', ':', '/', '/', 'g', 'i', 't', 'h', 'u', 'b']

/-- The characters of the repository URL pattern after its unescaped
dot. -/
def litComSlash : List Char := ['c', 'o', 'm', '/']

/-- The literal blob segment of the repository URL pattern. -/
def litBlob : List Char := ['/', 'b', 'l', 'o', 'b', '/']

/-- The escaped extension of the app URL pattern. -/
def litDotPy : List Char := ['.', 'p', 'y']

/-- The escaped extension of the repository URL pattern. -/
def litDotMd : List Char := ['.', 'm', 'd']

/-- The compiled pattern of GithubCoords.from_app_url
(streamlit_github.py lines 73 to 79) run with the semantics of Python
re.match: anchored at the start of the input, with any trailing input
after the matched part ignored.  The two unescaped dots of the host
match any character except the newline; w is the bracket class. -/
def matchAppUrl (w : Char → Bool) (s : List Char) : Option GithubCoords :=
  (matchLit litShare s).bind fun s1 =>
  (matchAny s1).bind fun s2 =>
  (matchLit litStreamlit s2).bind fun s3 =>
  (matchAny s3).bind fun s4 =>
  (matchLit litIoSlash s4).bind fun s5 =>
  (matchWordPlus w s5).bind fun ow =>
  (matchLit ['/'] ow.2).bind fun s6 =>
  (matchWordPlus w s6).bind fun rp =>
  (matchLit ['/'] rp.2).bind fun s7 =>
  (matchWordPlus w s7).bind fun br =>
  (matchLit ['/'] br.2).bind fun s8 =>
  (matchWordPlus w s8).bind fun pa =>
  (matchLit litDotPy pa.2).map fun _ =>
    ⟨ow.1.asString, rp.1.asString, br.1.asString, pa.1.asString ++ ".py"⟩

/-- The compiled pattern of GithubCoords.from_github_url
(streamlit_github.py lines 93 to 99) run with the semantics of Python
re.match.  The unescaped dot of the host matches any character except
the newline; w is the bracket class. -/
def matchGithubUrl (w : Char → Bool) (s : List Char) : Option GithubCoords :=
  (matchLit litGithub s).bind fun s1 =>
  (matchAny s1).bind fun s2 =>
  (matchLit litComSlash s2).bind fun s3 =>
  (matchWordPlus w s3).bind fun ow =>
  (matchLit ['/'] ow.2).bind fun s4 =>
  (matchWordPlus w s4).bind fun rp =>
  (matchLit litBlob rp.2).bind fun s5 =>
  (matchWordPlus w s5).bind fun br =>
  (matchLit ['/'] br.2).bind fun s6 =>
  (matchWordPlus w s6).bind fun pa =>
  (matchLit litDotMd pa.2).map fun _ =>
    ⟨ow.1.asString, rp.1.asString, br.1.asString, pa.1.asString ++ ".md"⟩

/-- The uniform failure of both parsers on a non-matching input:
re.match returns None and the subsequent call
matched_url.group("owner") raises AttributeError on None.  The spec
names this failure MalformedUrlError. -/
def MalformedUrlError : PyError := .attributeError "group"

/-- GithubCoords.from_app_url (streamlit_github.py lines 68 to 86),
generic in the bracket class w. -/
def GithubCoords.from_app_urlW (w : Char → Bool) (url : String) : Except PyError GithubCoords :=
  match matchAppUrl w url.data with
  | some c => .ok c
  | none => .error MalformedUrlError

/-- GithubCoords.from_github_url (streamlit_github.py lines 88 to
106), generic in the bracket class w. -/
def GithubCoords.from_github_urlW (w : Char → Bool) (url : String) : Except PyError GithubCoords :=
  match matchGithubUrl w url.data with
  | some c => .ok c
  | none => .error MalformedUrlError

/-- GithubCoords.from_app_url at the ASCII part of the class, used for
evaluation on concrete inputs: on an input all of whose characters are
ASCII this is the behaviour of the source function. -/
def GithubCoords.from_app_url (url : String) : Except PyError GithubCoords :=
  GithubCoords.from_app_urlW asciiWordChar url

/-- GithubCoords.from_github_url at the ASCII part of the class, used
for evaluation on concrete inputs: on an input all of whose characters
are ASCII this is the behaviour of the source function. -/
def GithubCoords.from_github_url (url : String) : Except PyError GithubCoords :=
  GithubCoords.from_github_urlW asciiWordChar url

/-- A nonempty run of characters of the class w. -/
def wordRunW (w : Char → Bool) (l : List Char) : Prop := l ≠ [] ∧ ∀ c ∈ l, w c = true

/-- A nonempty run of characters of the ASCII part of the class. -/
abbrev wordRun : List Char → Prop := wordRunW asciiWordChar

/-- The character list accepted by the app URL pattern, spelled out:
the host literals with arbitrary characters at the two wildcard dots,
four word runs separated by slashes, the escaped extension, and then
arbitrary trailing input. -/
def appShapeAt (c1 c2 : Char) (o r b p rest : List Char) : List Char :=
  litShare ++ (c1 :: (litStreamlit ++ (c2 :: (litIoSlash ++
    (o ++ ('/' :: (r ++ ('/' :: (b ++ ('/' :: (p ++ ('.' :: ('p' :: ('y' :: rest))))))))))))))

/-- The character list accepted by the repository URL pattern, spelled
out. -/
def ghShapeAt (c1 : Char) (o r b p rest : List Char) : List Char :=
  litGithub ++ (c1 :: (litComSlash ++
    (o ++ ('/' :: (r ++ ('/' :: ('b' :: ('l' :: ('o' :: ('b' :: ('/' :: (b ++ ('/' :: (p ++ ('.' :: ('m' :: ('d' :: rest)))))))))))))))))

/-- A string whose data begins with a match of the app URL pattern
over the class w: the wildcard positions hold any characters other
than the newline and the four fields are nonempty class runs. -/
def appUrlShape (w : Char → Bool) (url : String) : Prop :=
  ∃ (c1 c2 : Char) (o r b p rest : List Char),
    c1 ≠ '\n' ∧ c2 ≠ '\n' ∧
    wordRunW w o ∧ wordRunW w r ∧ wordRunW w b ∧ wordRunW w p ∧
    url.data = appShapeAt c1 c2 o r b p rest

/-- A string whose data begins with a match of the repository URL
pattern over the class w. -/
def ghUrlShape (w : Char → Bool) (url : String) : Prop :=
  ∃ (c1 : Char) (o r b p rest : List Char),
    c1 ≠ '\n' ∧
    wordRunW w o ∧ wordRunW w r ∧ wordRunW w b ∧ wordRunW w p ∧
    url.data = ghShapeAt c1 o r b p rest

/-- Modelled from the spec: the app URL grammar as the spec words it,
an exact whole-string match of
https colon slash slash share.streamlit.io slash owner slash repo slash
branch slash path, the dots literal, the fields word runs and the final
segment ending in the py extension.  Used only to compare the source
behaviour against the spec wording. -/
def appUrlExactSpec (url : String) : Bool :=
  match (matchLit "https://share.streamlit.io/".data url.data).bind fun s =>
   (matchWordPlus asciiWordChar s).bind fun ow =>
   (matchLit ['/'] ow.2).bind fun t1 =>
   (matchWordPlus asciiWordChar t1).bind fun rp =>
   (matchLit ['/'] rp.2).bind fun t2 =>
   (matchWordPlus asciiWordChar t2).bind fun br =>
   (matchLit ['/'] br.2).bind fun t3 =>
   (matchWordPlus asciiWordChar t3).bind fun pa =>
   matchLit litDotPy pa.2 with
  | some [] => true
  | _ => false

/-- Modelled from the spec: the repository URL grammar as the spec
words it, an exact whole-string match with literal dots and the md
extension. -/
def ghUrlExactSpec (url : String) : Bool :=
  match (matchLit "https://github.com/".data url.data).bind fun s =>
   (matchWordPlus asciiWordChar s).bind fun ow =>
   (matchLit ['/'] ow.2).bind fun t1 =>
   (matchWordPlus asciiWordChar t1).bind fun rp =>
   (matchLit litBlob rp.2).bind fun t2 =>
   (matchWordPlus asciiWordChar t2).bind fun br =>
   (matchLit ['/'] br.2).bind fun t3 =>
   (matchWordPlus asciiWordChar t3).bind fun pa =>
   matchLit litDotMd pa.2 with
  | some [] => true
  | _ => false

/-- The URL of the app badge (streamlit_github.py line 55). -/
def BADGE_URL : String := "https://static.streamlit.io/badges/streamlit_badge_black_white.svg"

/-- Strict UTF-8 decoding of a byte sequence, as performed by the
Python call bytes.decode("utf-8") at streamlit_app.py line 67: None
models UnicodeDecodeError.  Exactly the well-formed encodings are
accepted: no overlong form, no surrogate, nothing above the Unicode
maximum. -/
def utf8Decode : List Nat → Option (List Char)
  | [] => some []
  | b1 :: rest =>
    if b1 < 0x80 then
      match utf8Decode rest with
      | some cs => some (Char.ofNat b1 :: cs)
      | none => none
    else if 0xC2 ≤ b1 ∧ b1 ≤ 0xDF then
      match rest with
      | b2 :: rest2 =>
        if 0x80 ≤ b2 ∧ b2 ≤ 0xBF then
          match utf8Decode rest2 with
          | some cs => some (Char.ofNat ((b1 - 0xC0) * 64 + (b2 - 0x80)) :: cs)
          | none => none
        else none
      | [] => none
    else if 0xE0 ≤ b1 ∧ b1 ≤ 0xEF then
      match rest with
      | b2 :: b3 :: rest3 =>
        if (if b1 = 0xE0 then 0xA0 else 0x80) ≤ b2 ∧
            b2 ≤ (if b1 = 0xED then 0x9F else 0xBF) ∧
            0x80 ≤ b3 ∧ b3 ≤ 0xBF then
          match utf8Decode rest3 with
          | some cs =>
            some (Char.ofNat ((b1 - 0xE0) * 4096 + (b2 - 0x80) * 64 + (b3 - 0x80)) :: cs)
          | none => none
        else none
      | _ => none
    else if 0xF0 ≤ b1 ∧ b1 ≤ 0xF4 then
      match rest with
      | b2 :: b3 :: b4 :: rest4 =>
        if (if b1 = 0xF0 then 0x90 else 0x80) ≤ b2 ∧
            b2 ≤ (if b1 = 0xF4 then 0x8F else 0xBF) ∧
            0x80 ≤ b3 ∧ b3 ≤ 0xBF ∧ 0x80 ≤ b4 ∧ b4 ≤ 0xBF then
          match utf8Decode rest4 with
          | some cs =>
            some (Char.ofNat
              ((b1 - 0xF0) * 262144 + (b2 - 0x80) * 4096 + (b3 - 0x80) * 64 + (b4 - 0x80)) :: cs)
          | none => none
        else none
      | _ => none
    else none

/-- Does the second list start with the first one. -/
def startsWithSeq : List Char → List Char → Bool
  | [], _ => true
  | _ :: _, [] => false
  | p :: ps, x :: xs => if x = p then startsWithSeq ps xs else false

/-- Does the second list contain the first as a contiguous subsequence;
the semantics of the Python operator in on strings. -/
def containsSeq (pat : List Char) : List Char → Bool
  | [] => startsWithSeq pat []
  | x :: xs => startsWithSeq pat (x :: xs) || containsSeq pat xs

/-- Modelled from the spec: the badge detector hasBadge of spec 4.4.
The function streamlit_github.has_streamlit_badge is called at
streamlit_app.py line 69 but is defined nowhere in the sources; the
commented-out check at streamlit_app.py line 103, namely BADGE_URL in
readme_contents with readme_contents obtained at line 67 by
decoded_content.decode("utf-8"), shows the intended computation.
Decode the raw bytes as UTF-8, failing with DecodingError on invalid
input, and report whether the decoded text contains BADGE_URL. -/
def has_streamlit_badge (bytes : List Nat) : Except PyError Bool :=
  match utf8Decode bytes with
  | none => .error .decodingError
  | some text => .ok (containsSeq BADGE_URL.data text)

/-- The attributes of a GithubCoords instance: the four fields set by
the constructor (streamlit_github.py lines 63 to 66) and the two static
methods.  The class has no attribute get_repo; the module-level
function get_repo of streamlit_github.py line 150 is not an attribute
of the class. -/
def githubCoordsAttrs : List String :=
  ["owner", "repo", "branch", "path", "from_app_url", "from_github_url"]

/-- Python attribute lookup on a GithubCoords instance. -/
def getattrCoords (attr : String) : Except PyError Unit :=
  if attr ∈ githubCoordsAttrs then .ok () else .error (.attributeError attr)

/-- The names defined at module level in streamlit_github.py: the
imports and the module-level definitions.  Neither get_readme nor
has_streamlit_badge is among them. -/
def streamlitGithubModuleAttrs : List String :=
  ["st", "functools", "math", "time", "re", "datetime", "Github", "NamedUser",
   "ContentFile", "Repository", "RateLimitExceededException", "GithubException",
   "GithubMainClass", "_get_attr_func", "GITHUB_HASH_FUNCS", "rate_limit",
   "BADGE_URL", "GithubCoords", "from_access_token", "get_user_from_email",
   "get_streamlit_files", "get_repo", "get_contents"]

/-- Python attribute lookup on the module streamlit_github. -/
def getattrModule (attr : String) : Except PyError Unit :=
  if attr ∈ streamlitGithubModuleAttrs then .ok () else .error (.attributeError attr)

/-- The body of the per-row processing loop of parse_s4a_apps
(streamlit_app.py lines 57 to 76) up to the first badge value: parse
the app url (line 60), look up the attribute get_repo on the coords
object (line 64), then the attributes get_readme (line 66) and
has_streamlit_badge (line 69) on the module; badge abstracts the value
that the remaining, unreachable code would compute and append. -/
def processRow (url : String) (badge : Bool) : Except PyError Bool :=
  match GithubCoords.from_app_url url with
  | .error e => .error e
  | .ok _coords =>
    match getattrCoords "get_repo" with
    | .error e => .error e
    | .ok _ =>
      match getattrModule "get_readme" with
      | .error e => .error e
      | .ok _ =>
        match getattrModule "has_streamlit_badge" with
        | .error e => .error e
        | .ok _ => .ok badge

theorem someBind (a : α) (f : α → Option β) : (some a).bind f = f a := rfl

theorem someMap (a : α) (f : α → β) : (some a).map f = some (f a) := rfl

theorem matchLit_eq_some {l : List Char} : ∀ {s r : List Char},
    matchLit l s = some r ↔ s = l ++ r := by
  induction l with
  | nil =>
    intro s r
    simp [matchLit]
  | cons c cs ih =>
    intro s r
    cases s with
    | nil => simp [matchLit]
    | cons x xs =>
      by_cases hx : x = c
      · subst hx
        simp [matchLit, ih]
      · simp [matchLit, hx]

theorem matchLit_append (l r : List Char) : matchLit l (l ++ r) = some r :=
  matchLit_eq_some.mpr rfl

theorem matchLit_slash (t : List Char) : matchLit ['/'] ('/' :: t) = some t := by
  simp [matchLit]

theorem matchLit_dotPy (t : List Char) :
    matchLit litDotPy ('.' :: ('p' :: ('y' :: t))) = some t := by
  simp [matchLit, litDotPy]

theorem matchLit_dotMd (t : List Char) :
    matchLit litDotMd ('.' :: ('m' :: ('d' :: t))) = some t := by
  simp [matchLit, litDotMd]

theorem matchLit_blob (t : List Char) :
    matchLit litBlob ('/' :: ('b' :: ('l' :: ('o' :: ('b' :: ('/' :: t)))))) = some t := by
  simp [matchLit, litBlob]

theorem matchAny_cons {c : Char} (hc : c ≠ '\n') (xs : List Char) :
    matchAny (c :: xs) = some xs := by
  rw [matchAny, if_neg hc]

theorem matchAny_eq_some {s r : List Char} :
    matchAny s = some r ↔ ∃ c, c ≠ '\n' ∧ s = c :: r := by
  cases s with
  | nil => simp [matchAny]
  | cons x xs =>
    by_cases hx : x = '\n'
    · subst hx
      rw [matchAny, if_pos rfl]
      constructor
      · intro h
        cases h
      · rintro ⟨c, hc, h⟩
        cases h
        exact absurd rfl hc
    · rw [matchAny_cons hx]
      constructor
      · intro h
        refine ⟨x, hx, ?_⟩
        injection h with h2
        rw [h2]
      · rintro ⟨c, hc, h⟩
        injection h with h1 h2
        rw [h2]

theorem mem_takeWhile_class {w : Char → Bool} {s : List Char} :
    ∀ c ∈ s.takeWhile w, w c = true := by
  induction s with
  | nil => simp
  | cons a t ih =>
    by_cases ha : w a
    · simp [List.takeWhile_cons, ha]
      exact fun c hc => ih c hc
    · simp [List.takeWhile_cons, ha]

theorem takeWhile_class_append {w : Char → Bool} {xs : List Char}
    (hall : ∀ c ∈ xs, w c = true) {y : Char} (hy : w y = false) (ys : List Char) :
    (xs ++ y :: ys).takeWhile w = xs ∧ (xs ++ y :: ys).dropWhile w = y :: ys := by
  induction xs with
  | nil => simp [List.takeWhile_cons, List.dropWhile_cons, hy]
  | cons a t ih =>
    have ha : w a = true := hall a (by simp)
    have ih2 := ih (fun c hc => hall c (by simp [hc]))
    simp [List.takeWhile_cons, List.dropWhile_cons, ha, ih2.1, ih2.2]

theorem matchWordPlus_boundary (w : Char → Bool) {xs : List Char} (hne : xs ≠ [])
    (hall : ∀ c ∈ xs, w c = true) {y : Char} (hy : w y = false) (ys : List Char) :
    matchWordPlus w (xs ++ y :: ys) = some (xs, y :: ys) := by
  have h := takeWhile_class_append hall hy ys
  rw [matchWordPlus, h.1, h.2, if_neg hne]

theorem matchWordPlus_eq_some {w : Char → Bool} {s u r : List Char}
    (h : matchWordPlus w s = some (u, r)) :
    s = u ++ r ∧ u ≠ [] ∧ (∀ c ∈ u, w c = true) := by
  rw [matchWordPlus] at h
  by_cases hw : s.takeWhile w = []
  · rw [if_pos hw] at h
    cases h
  · rw [if_neg hw] at h
    have h1 : s.takeWhile w = u ∧ s.dropWhile w = r := by
      have := h
      simp at this
      exact this
    obtain ⟨ht, hd⟩ := h1
    refine ⟨?_, ?_, ?_⟩
    · rw [← ht, ← hd, List.takeWhile_append_dropWhile]
    · rw [← ht]; exact hw
    · intro c hc
      rw [← ht] at hc
      exact mem_takeWhile_class c hc

theorem matchAppUrl_complete (w : Char → Bool) (hws : w '/' = false) (hwd : w '.' = false)
    {c1 c2 : Char} (hc1 : c1 ≠ '\n') (hc2 : c2 ≠ '\n') {o r b p : List Char} (rest : List Char)
    (ho : wordRunW w o) (hr : wordRunW w r) (hb : wordRunW w b) (hp : wordRunW w p) :
    matchAppUrl w (appShapeAt c1 c2 o r b p rest) =
      some ⟨o.asString, r.asString, b.asString, p.asString ++ ".py"⟩ := by
  simp only [matchAppUrl, appShapeAt, matchLit_append, someBind,
    matchAny_cons hc1, matchAny_cons hc2,
    matchWordPlus_boundary w ho.1 ho.2 hws, matchWordPlus_boundary w hr.1 hr.2 hws,
    matchWordPlus_boundary w hb.1 hb.2 hws, matchWordPlus_boundary w hp.1 hp.2 hwd,
    matchLit_slash, matchLit_dotPy, someMap]

theorem matchGithubUrl_complete (w : Char → Bool) (hws : w '/' = false) (hwd : w '.' = false)
    {c1 : Char} (hc1 : c1 ≠ '\n') {o r b p : List Char} (rest : List Char)
    (ho : wordRunW w o) (hr : wordRunW w r) (hb : wordRunW w b) (hp : wordRunW w p) :
    matchGithubUrl w (ghShapeAt c1 o r b p rest) =
      some ⟨o.asString, r.asString, b.asString, p.asString ++ ".md"⟩ := by
  simp only [matchGithubUrl, ghShapeAt, matchLit_append, someBind, matchAny_cons hc1,
    matchWordPlus_boundary w ho.1 ho.2 hws, matchWordPlus_boundary w hr.1 hr.2 hws,
    matchWordPlus_boundary w hb.1 hb.2 hws, matchWordPlus_boundary w hp.1 hp.2 hwd,
    matchLit_slash, matchLit_blob, matchLit_dotMd, someMap]

theorem matchAppUrl_sound {w : Char → Bool} {s : List Char} {c : GithubCoords}
    (h : matchAppUrl w s = some c) :
    ∃ (c1 c2 : Char) (o r b p rest : List Char),
      c1 ≠ '\n' ∧ c2 ≠ '\n' ∧
      wordRunW w o ∧ wordRunW w r ∧ wordRunW w b ∧ wordRunW w p ∧
      s = appShapeAt c1 c2 o r b p rest ∧
      c = ⟨o.asString, r.asString, b.asString, p.asString ++ ".py"⟩ := by
  simp only [matchAppUrl, Option.bind_eq_some, Option.map_eq_some'] at h
  obtain ⟨s1, e1, s2, e2, s3, e3, s4, e4, s5, e5, ⟨o, t1⟩, e6, s6, e7, ⟨r, t2⟩, e8,
    s7, e9, ⟨b, t3⟩, e10, s8, e11, ⟨p, t4⟩, e12, rest, e13, hc⟩ := h
  have d1 : s = litShare ++ s1 := matchLit_eq_some.mp e1
  obtain ⟨c1, hc1, d2⟩ := matchAny_eq_some.mp e2
  have d3 : s2 = litStreamlit ++ s3 := matchLit_eq_some.mp e3
  obtain ⟨c2, hc2, d4⟩ := matchAny_eq_some.mp e4
  have d5 : s4 = litIoSlash ++ s5 := matchLit_eq_some.mp e5
  obtain ⟨d6, hno, hao⟩ := matchWordPlus_eq_some e6
  have d7 : t1 = '/' :: s6 := matchLit_eq_some.mp e7
  obtain ⟨d8, hnr, har⟩ := matchWordPlus_eq_some e8
  have d9 : t2 = '/' :: s7 := matchLit_eq_some.mp e9
  obtain ⟨d10, hnb, hab⟩ := matchWordPlus_eq_some e10
  have d11 : t3 = '/' :: s8 := matchLit_eq_some.mp e11
  obtain ⟨d12, hnp, hap⟩ := matchWordPlus_eq_some e12
  have d13 : t4 = '.' :: ('p' :: ('y' :: rest)) := matchLit_eq_some.mp e13
  refine ⟨c1, c2, o, r, b, p, rest, hc1, hc2, ⟨hno, hao⟩, ⟨hnr, har⟩, ⟨hnb, hab⟩, ⟨hnp, hap⟩,
    ?_, hc.symm⟩
  rw [d1, d2, d3, d4, d5, d6, d7, d8, d9, d10, d11, d12, d13]
  simp only [appShapeAt]

theorem matchGithubUrl_sound {w : Char → Bool} {s : List Char} {c : GithubCoords}
    (h : matchGithubUrl w s = some c) :
    ∃ (c1 : Char) (o r b p rest : List Char),
      c1 ≠ '\n' ∧
      wordRunW w o ∧ wordRunW w r ∧ wordRunW w b ∧ wordRunW w p ∧
      s = ghShapeAt c1 o r b p rest ∧
      c = ⟨o.asString, r.asString, b.asString, p.asString ++ ".md"⟩ := by
  simp only [matchGithubUrl, Option.bind_eq_some, Option.map_eq_some'] at h
  obtain ⟨s1, e1, s2, e2, s3, e3, ⟨o, t1⟩, e4, s4, e5, ⟨r, t2⟩, e6, s5, e7, ⟨b, t3⟩, e8,
    s6, e9, ⟨p, t4⟩, e10, rest, e11, hc⟩ := h
  have d1 : s = litGithub ++ s1 := matchLit_eq_some.mp e1
  obtain ⟨c1, hc1, d2⟩ := matchAny_eq_some.mp e2
  have d3 : s2 = litComSlash ++ s3 := matchLit_eq_some.mp e3
  obtain ⟨d4, hno, hao⟩ := matchWordPlus_eq_some e4
  have d5 : t1 = '/' :: s4 := matchLit_eq_some.mp e5
  obtain ⟨d6, hnr, har⟩ := matchWordPlus_eq_some e6
  have d7 : t2 = '/' :: ('b' :: ('l' :: ('o' :: ('b' :: ('/' :: s5))))) := matchLit_eq_some.mp e7
  obtain ⟨d8, hnb, hab⟩ := matchWordPlus_eq_some e8
  have d9 : t3 = '/' :: s6 := matchLit_eq_some.mp e9
  obtain ⟨d10, hnp, hap⟩ := matchWordPlus_eq_some e10
  have d11 : t4 = '.' :: ('m' :: ('d' :: rest)) := matchLit_eq_some.mp e11
  refine ⟨c1, o, r, b, p, rest, hc1, ⟨hno, hao⟩, ⟨hnr, har⟩, ⟨hnb, hab⟩, ⟨hnp, hap⟩,
    ?_, hc.symm⟩
  rw [d1, d2, d3, d4, d5, d6, d7, d8, d9, d10, d11]
  simp only [ghShapeAt]

theorem from_app_url_ok_iff (w : Char → Bool) (hws : w '/' = false) (hwd : w '.' = false)
    (url : String) :
    (∃ c, GithubCoords.from_app_urlW w url = .ok c) ↔ appUrlShape w url := by
  constructor
  · rintro ⟨c, hc⟩
    cases hm : matchAppUrl w url.data with
    | none => simp [GithubCoords.from_app_urlW, hm] at hc
    | some d =>
      obtain ⟨c1, c2, o, r, b, p, rest, hc1, hc2, ho, hr, hb, hp, hsh, _⟩ :=
        matchAppUrl_sound hm
      exact ⟨c1, c2, o, r, b, p, rest, hc1, hc2, ho, hr, hb, hp, hsh⟩
  · rintro ⟨c1, c2, o, r, b, p, rest, hc1, hc2, ho, hr, hb, hp, hsh⟩
    refine ⟨⟨o.asString, r.asString, b.asString, p.asString ++ ".py"⟩, ?_⟩
    have hm := matchAppUrl_complete w hws hwd hc1 hc2 rest ho hr hb hp
    simp [GithubCoords.from_app_urlW, hsh, hm]

theorem from_github_url_ok_iff (w : Char → Bool) (hws : w '/' = false) (hwd : w '.' = false)
    (url : String) :
    (∃ c, GithubCoords.from_github_urlW w url = .ok c) ↔ ghUrlShape w url := by
  constructor
  · rintro ⟨c, hc⟩
    cases hm : matchGithubUrl w url.data with
    | none => simp [GithubCoords.from_github_urlW, hm] at hc
    | some d =>
      obtain ⟨c1, o, r, b, p, rest, hc1, ho, hr, hb, hp, hsh, _⟩ := matchGithubUrl_sound hm
      exact ⟨c1, o, r, b, p, rest, hc1, ho, hr, hb, hp, hsh⟩
  · rintro ⟨c1, o, r, b, p, rest, hc1, ho, hr, hb, hp, hsh⟩
    refine ⟨⟨o.asString, r.asString, b.asString, p.asString ++ ".md"⟩, ?_⟩
    have hm := matchGithubUrl_complete w hws hwd hc1 rest ho hr hb hp
    simp [GithubCoords.from_github_urlW, hsh, hm]

/-- Claim C2 (amended): on a rate limit signal the guard queries the
rate limit status; with t seconds until the reported reset the
computed wait is min (ceil (t + 1)) 60, clamped from above at 60 only;
at a reset 500 seconds in the future the wait is exactly 60 seconds;
the wait is non-negative exactly when the reset lies less than two
seconds in the past; and a non-negative wait is the single sleep the
guard performs before its retry. -/
theorem C2_waitSeconds_spec :
    waitSeconds 500 = 60 ∧
    (∀ t : ℚ, waitSeconds t ≤ 60) ∧
    (∀ t : ℚ, 0 ≤ waitSeconds t ↔ -2 < t) ∧
    (∀ (t : ℚ) (f : ℕ → Except PyError ℕ), f 0 = .error .rateLimited → 0 ≤ waitSeconds t →
      (rateLimitRun t f).sleeps = [waitSeconds t]) := by
  refine ⟨?_, fun t => min_le_right _ _, fun t => ?_, fun t f hf hw => ?_⟩
  · have h : ((500 : ℚ) + 1) = ((501 : ℤ) : ℚ) := by norm_num
    rw [waitSeconds, h, Int.ceil_intCast]
    decide
  · rw [waitSeconds, le_min_iff]
    constructor
    · rintro ⟨h, -⟩
      have h2 := Int.lt_ceil.mp (show (-1 : ℤ) < ⌈t + 1⌉ by omega)
      push_cast at h2
      linarith
    · intro h
      refine ⟨?_, by decide⟩
      have h1 := Int.lt_ceil.mpr (show ((-1 : ℤ) : ℚ) < t + 1 by push_cast; linarith)
      omega
  · simp [rateLimitRun, hf, not_lt.mpr hw]

/-- Witness for C2 at concrete inputs. -/
theorem C2_witness : 0 ≤ waitSeconds 0 ∧ waitSeconds 500 = 60 :=
  ⟨(C2_waitSeconds_spec.2.2.1 0).mpr (by norm_num), C2_waitSeconds_spec.1⟩

/-- Counterexample to claim C2 as stated: the computed wait is not
clamped to the interval from 0 to 60; at a reset 10 seconds in the past
the computed wait is the negative value -9. -/
theorem C2_counterexample : waitSeconds (-10) = -9 ∧ waitSeconds (-10) < 0 := by
  have h : ((-10 : ℚ) + 1) = ((-9 : ℤ) : ℚ) := by norm_num
  constructor
  · rw [waitSeconds, h, Int.ceil_intCast]
    decide
  · rw [waitSeconds, h, Int.ceil_intCast]
    decide

/-- Claim C3 (amended): an operation wrapped by rate_limit behaves so:
a successful first attempt is returned at once; when the first attempt
is rate limited and the computed wait is non-negative, the guard
sleeps once and retries exactly once, and the second outcome, the rate
limit signal again included, propagates with no further retry; when
the first attempt is rate limited but the computed wait is negative,
time.sleep raises ValueError and the run ends after the single first
call, with no sleep and no retry; any other exception propagates
immediately, untouched, with no sleep and no retry. -/
theorem C3_rate_limit_policy {α : Type} (t : ℚ) (f : ℕ → Except PyError α) :
    (∀ a, f 0 = .ok a → rateLimitRun t f = ⟨.ok a, 1, []⟩) ∧
    (f 0 = .error .rateLimited → 0 ≤ waitSeconds t →
      rateLimitRun t f = ⟨f 1, 2, [waitSeconds t]⟩) ∧
    (f 0 = .error .rateLimited → waitSeconds t < 0 →
      rateLimitRun t f = ⟨.error .valueError, 1, []⟩) ∧
    (∀ e, e ≠ PyError.rateLimited → f 0 = .error e → rateLimitRun t f = ⟨.error e, 1, []⟩) := by
  refine ⟨fun a ha => ?_, fun hr hw => ?_, fun hr hw => ?_, fun e he hf => ?_⟩
  · simp [rateLimitRun, ha]
  · simp [rateLimitRun, hr, not_lt.mpr hw]
  · simp [rateLimitRun, hr, hw]
  · cases e with
    | rateLimited => exact absurd rfl he
    | githubException m => simp [rateLimitRun, hf]
    | attributeError a => simp [rateLimitRun, hf]
    | runtimeError m => simp [rateLimitRun, hf]
    | decodingError => simp [rateLimitRun, hf]
    | valueError => simp [rateLimitRun, hf]

/-- Witness for C3: a first attempt that is rate limited at a reset
zero seconds away gives the non-negative wait of one second, one
sleep, two calls and the second result. -/
theorem C3_witness :
    rateLimitRun 0 (fun n => if n = 0 then .error .rateLimited else .ok (3 : ℕ)) =
      ⟨.ok 3, 2, [1]⟩ := by
  have h1 : ((0 : ℚ) + 1) = ((1 : ℤ) : ℚ) := by norm_num
  have hw : waitSeconds 0 = 1 := by rw [waitSeconds, h1, Int.ceil_intCast]; decide
  have h := (C3_rate_limit_policy 0
    (fun n => if n = 0 then .error .rateLimited else .ok (3 : ℕ))).2.1 rfl
    (by rw [hw]; decide)
  rw [h, hw]
  simp

/-- Counterexample to claim C3 as stated: a first attempt that is rate
limited while the rate limit status reports a reset 10 seconds in the
past.  The computed wait is the negative -9, time.sleep raises
ValueError, and the underlying operation is never retried, although
the claim demands a retry after a wait for every rate limited first
attempt. -/
theorem C3_counterexample :
    rateLimitRun (-10) (fun n => if n = 0 then .error .rateLimited else .ok (3 : ℕ)) =
      ⟨.error .valueError, 1, []⟩ := by
  have h1 : ((-10 : ℚ) + 1) = ((-9 : ℤ) : ℚ) := by norm_num
  have hw : waitSeconds (-10) = -9 := by rw [waitSeconds, h1, Int.ceil_intCast]; decide
  simp [rateLimitRun, hw]

/-- Claim C4 (amended): get_repo is not wrapped by the rate limit guard;
it invokes the underlying fetch for the composed identifier exactly
once, never sleeps, and a rate limit signal from that fetch propagates
immediately to the caller. -/
theorem C4_get_repo_unguarded {α : Type} (api : String → ℕ → Except PyError α) (coords : GithubCoords) :
    get_repoRun api coords = ⟨api (coords.owner ++ "/" ++ coords.repo) 0, 1, []⟩ ∧
    (api (coords.owner ++ "/" ++ coords.repo) 0 = .error .rateLimited →
      (get_repoRun api coords).result = .error .rateLimited ∧
      (get_repoRun api coords).sleeps = []) := by
  exact ⟨rfl, fun h => ⟨h, rfl⟩⟩

/-- Witness for C4 at a concrete fetch and concrete coordinates. -/
theorem C4_witness :
    (get_repoRun c4api ⟨"o", "r", "b", "p"⟩).result = .error .rateLimited ∧
    (get_repoRun c4api ⟨"o", "r", "b", "p"⟩).sleeps = [] :=
  (C4_get_repo_unguarded c4api ⟨"o", "r", "b", "p"⟩).2 rfl

/-- Counterexample to claim C4 as stated: a repository fetch that is
rate limited on its first attempt and would succeed on a retry.  The
call of get_repo propagates the rate limit signal at once, with one
single call and no sleep, whereas the behaviour demanded by the claim,
the rate limit guard around that same fetch, would sleep once and
return the successful retry. -/
theorem C4_counterexample :
    get_repoRun c4api ⟨"a", "b", "c", "d.py"⟩ = ⟨.error .rateLimited, 1, []⟩ ∧
    rateLimitRun 5 (c4api ("a" ++ "/" ++ "b")) = ⟨.ok 7, 2, [6]⟩ := by
  constructor
  · rfl
  · have h1 : ((5 : ℚ) + 1) = ((6 : ℤ) : ℚ) := by norm_num
    have hw : waitSeconds 5 = 6 := by rw [waitSeconds, h1, Int.ceil_intCast]; decide
    simp [rateLimitRun, c4api, hw]

/-- Claim C7 (amended): inside get_streamlit_files a GithubException
whose message is Validation Failed is converted into the normal result
of no files; every other exception, the not found kind and the
exceptions that are no GithubException included, propagates to the
caller unmodified, and the rate limit signal is re-raised for the
surrounding guard. -/
theorem C7_error_policy {α : Type} :
    (∀ files : List α, get_streamlit_files (.ok files) = .ok files) ∧
    (get_streamlit_files (α := α) (.error (.githubException "Validation Failed")) = .ok []) ∧
    (∀ e : PyError, e ≠ .githubException "Validation Failed" →
      get_streamlit_files (α := α) (.error e) = .error e) := by
  refine ⟨fun files => rfl, rfl, fun e he => ?_⟩
  cases e with
  | rateLimited => rfl
  | githubException m =>
    have hm : m ≠ "Validation Failed" := by
      intro h
      exact he (by rw [h])
    simp [get_streamlit_files, hm]
  | attributeError a => rfl
  | runtimeError m => rfl
  | decodingError => rfl
  | valueError => rfl

/-- Witness for C7: a not found error propagates unmodified. -/
theorem C7_witness :
    get_streamlit_files (α := ℕ) (.error (.githubException "Not Found")) =
      .error (.githubException "Not Found") :=
  C7_error_policy.2.2 (.githubException "Not Found") (by decide)

/-- Counterexample to claim C7 as stated: a GithubException with message
Validation Failed is neither the not found kind nor a malformed URL,
yet get_streamlit_files converts it into the normal, non-error result
of no files instead of propagating it. -/
theorem C7_counterexample :
    get_streamlit_files (α := ℕ) (.error (.githubException "Validation Failed")) = .ok [] ∧
    ∀ e, get_streamlit_files (α := ℕ) (.error (.githubException "Validation Failed")) ≠ .error e := by
  exact ⟨rfl, fun e h => Except.noConfusion h⟩

/-- Claim C8: get_user_from_email returns None on an empty search
result, the unique user on a singleton search result, and raises a
RuntimeError, recovered nowhere in the function, precisely when the
email is associated with more than one user. -/
theorem C8_user_lookup {α : Type} (email : String) (users : List α) :
    (users = [] → get_user_from_email email (.ok users) = .ok none) ∧
    (∀ u, users = [u] → get_user_from_email email (.ok users) = .ok (some u)) ∧
    ((∃ msg, get_user_from_email email (.ok users) = .error (.runtimeError msg)) ↔
      2 ≤ users.length) := by
  refine ⟨fun h => ?_, fun u h => ?_, ?_⟩
  · subst h; rfl
  · subst h; rfl
  · cases users with
    | nil => simp [get_user_from_email]
    | cons a l =>
      cases l with
      | nil => simp [get_user_from_email]
      | cons b l2 => simp [get_user_from_email]

/-- Witness for C8 at concrete search results. -/
theorem C8_witness :
    get_user_from_email "a@b.com" (.ok [5]) = .ok (some (5 : ℕ)) ∧
    (∃ msg, get_user_from_email "a@b.com" (.ok [(5 : ℕ), 6]) = .error (.runtimeError msg)) :=
  ⟨(C8_user_lookup "a@b.com" [5]).2.1 5 rfl,
   (C8_user_lookup "a@b.com" [5, 6]).2.2.mpr (by decide)⟩

/-- Claim C1 (amended): for every bracket class w and every input
string that does not begin with a match of either pattern over w, both
parse functions built on w fail with MalformedUrlError, the
AttributeError raised by calling group on the None that re.match
returns; moreover any failure of either parse function is that one
error, never an unrelated exception.  At the real class, Python
backslash-w together with the hyphen, this says that a string with no
prefix match of either pattern always fails so. -/
theorem C1_nonmatching_fails (w : Char → Bool) (url : String)
    (ha : ¬ appUrlShape w url) (hg : ¬ ghUrlShape w url) :
    GithubCoords.from_app_urlW w url = .error MalformedUrlError ∧
    GithubCoords.from_github_urlW w url = .error MalformedUrlError ∧
    (∀ e, GithubCoords.from_app_urlW w url = .error e → e = MalformedUrlError) ∧
    (∀ e, GithubCoords.from_github_urlW w url = .error e → e = MalformedUrlError) := by
  have hma : matchAppUrl w url.data = none := by
    cases hm : matchAppUrl w url.data with
    | none => rfl
    | some c =>
      obtain ⟨c1, c2, o, r, b, p, rest, hc1, hc2, ho, hr, hb, hp, hsh, _⟩ :=
        matchAppUrl_sound hm
      exact absurd ⟨c1, c2, o, r, b, p, rest, hc1, hc2, ho, hr, hb, hp, hsh⟩ ha
  have hmg : matchGithubUrl w url.data = none := by
    cases hm : matchGithubUrl w url.data with
    | none => rfl
    | some c =>
      obtain ⟨c1, o, r, b, p, rest, hc1, ho, hr, hb, hp, hsh, _⟩ := matchGithubUrl_sound hm
      exact absurd ⟨c1, o, r, b, p, rest, hc1, ho, hr, hb, hp, hsh⟩ hg
  refine ⟨by simp [GithubCoords.from_app_urlW, hma],
    by simp [GithubCoords.from_github_urlW, hmg], fun e he => ?_, fun e he => ?_⟩
  · simp [GithubCoords.from_app_urlW, hma] at he
    exact he.symm
  · simp [GithubCoords.from_github_urlW, hmg] at he
    exact he.symm

/-- Witness for C1 at a concrete string matched by neither pattern,
with the class instantiated at its ASCII part, which runs as the real
class does on this all-ASCII input. -/
theorem C1_witness :
    GithubCoords.from_app_urlW asciiWordChar "hello" = .error MalformedUrlError ∧
    GithubCoords.from_github_urlW asciiWordChar "hello" = .error MalformedUrlError := by
  have ha : ¬ appUrlShape asciiWordChar "hello" := by
    intro hs
    obtain ⟨c, hc⟩ :=
      (from_app_url_ok_iff asciiWordChar (by decide) (by decide) "hello").mpr hs
    rw [show GithubCoords.from_app_urlW asciiWordChar "hello" = .error MalformedUrlError
      from rfl] at hc
    cases hc
  have hg : ¬ ghUrlShape asciiWordChar "hello" := by
    intro hs
    obtain ⟨c, hc⟩ :=
      (from_github_url_ok_iff asciiWordChar (by decide) (by decide) "hello").mpr hs
    rw [show GithubCoords.from_github_urlW asciiWordChar "hello" = .error MalformedUrlError
      from rfl] at hc
    cases hc
  exact ⟨(C1_nonmatching_fails asciiWordChar "hello" ha hg).1,
    (C1_nonmatching_fails asciiWordChar "hello" ha hg).2.1⟩

/-- Counterexample to claim C1 as stated: a string that matches neither
grammar exactly, because of its query suffix, on which from_app_url
nevertheless succeeds instead of failing with MalformedUrlError. -/
theorem C1_counterexample :
    appUrlExactSpec "https://share.streamlit.io/a/b/c/d.py?x=1" = false ∧
    ghUrlExactSpec "https://share.streamlit.io/a/b/c/d.py?x=1" = false ∧
    GithubCoords.from_app_url "https://share.streamlit.io/a/b/c/d.py?x=1" =
      .ok ⟨"a", "b", "c", "d.py"⟩ := by
  exact ⟨rfl, rfl, rfl⟩

/-- Claim C5 (amended): for every bracket class w containing neither
the slash nor the dot, facts that hold of the real class, a parse
built on w succeeds exactly when the input begins with a match of the
respective pattern over w: owner, repo and branch are nonempty runs of
class characters, the path final segment is such a run followed by the
expected extension, each unescaped host dot matches an arbitrary
character other than the newline, and arbitrary trailing input after
the matched part is accepted, not rejected.  At the real class, Python
backslash-w together with the hyphen, this is the acceptance boundary
of the program. -/
theorem C5_parse_iff_shape (w : Char → Bool) (hws : w '/' = false) (hwd : w '.' = false)
    (url : String) :
    ((∃ c, GithubCoords.from_app_urlW w url = .ok c) ↔ appUrlShape w url) ∧
    ((∃ c, GithubCoords.from_github_urlW w url = .ok c) ↔ ghUrlShape w url) :=
  ⟨from_app_url_ok_iff w hws hwd url, from_github_url_ok_iff w hws hwd url⟩

/-- Witness for C5 at a concrete accepted string, with the class
instantiated at its ASCII part, which runs as the real class does on
this all-ASCII input. -/
theorem C5_witness :
    ∃ c, GithubCoords.from_app_urlW asciiWordChar
      "https://share.streamlit.io/a/b/c/d.py" = .ok c :=
  (C5_parse_iff_shape asciiWordChar (by decide) (by decide)
      "https://share.streamlit.io/a/b/c/d.py").1.mpr
    ⟨'.', '.', ['a'], ['b'], ['c'], ['d'], [], by decide, by decide,
      ⟨by decide, by decide⟩, ⟨by decide, by decide⟩,
      ⟨by decide, by decide⟩, ⟨by decide, by decide⟩, by decide⟩

/-- Counterexample to claim C5 as stated: the whole-input requirement
fails twice over.  A string with extra trailing characters after the
matched part is accepted rather than rejected, and a string whose host
has arbitrary characters in place of the dots is accepted as well;
neither matches the exact grammar. -/
theorem C5_counterexample :
    GithubCoords.from_app_url "https://share.streamlit.io/o/r/br/app.py/extra" =
      .ok ⟨"o", "r", "br", "app.py"⟩ ∧
    appUrlExactSpec "https://share.streamlit.io/o/r/br/app.py/extra" = false ∧
    GithubCoords.from_app_url "https://shareXstreamlitYio/o/r/br/app.py" =
      .ok ⟨"o", "r", "br", "app.py"⟩ ∧
    appUrlExactSpec "https://shareXstreamlitYio/o/r/br/app.py" = false := by
  exact ⟨rfl, rfl, rfl, rfl⟩

/-- Claim C9: parsing a URL of the app grammar, its host dots written
literally, and rebuilding a URL from the four parsed fields yields the
original URL. -/
theorem C9_roundtrip (o r b p : String) (ho : wordRun o.data) (hr : wordRun r.data)
    (hb : wordRun b.data) (hp : wordRun p.data) :
    ∃ c : GithubCoords,
      GithubCoords.from_app_url
        ("https://share.streamlit.io/" ++ o ++ "/" ++ r ++ "/" ++ b ++ "/" ++ p ++ ".py") =
        .ok c ∧
      "https://share.streamlit.io/" ++ c.owner ++ "/" ++ c.repo ++ "/" ++ c.branch ++ "/" ++
          c.path =
        "https://share.streamlit.io/" ++ o ++ "/" ++ r ++ "/" ++ b ++ "/" ++ p ++ ".py" := by
  have h1 : "https://share.streamlit.io/".data =
      litShare ++ ('.' :: (litStreamlit ++ ('.' :: litIoSlash))) := rfl
  have h2 : "/".data = ['/'] := rfl
  have h3 : ".py".data = ['.', 'p', 'y'] := rfl
  have hdata :
      ("https://share.streamlit.io/" ++ o ++ "/" ++ r ++ "/" ++ b ++ "/" ++ p ++ ".py").data =
        appShapeAt '.' '.' o.data r.data b.data p.data [] := by
    simp only [String.data_append, h1, h2, h3, appShapeAt]
    simp [litShare, litStreamlit, litIoSlash, List.append_assoc]
  refine ⟨⟨o, r, b, p ++ ".py"⟩, ?_, ?_⟩
  · have hm := matchAppUrl_complete asciiWordChar (by decide) (by decide)
      (show ('.' : Char) ≠ '\n' by decide) (show ('.' : Char) ≠ '\n' by decide)
      [] ho hr hb hp
    have hos : o.data.asString = o := rfl
    have hrs : r.data.asString = r := rfl
    have hbs : b.data.asString = b := rfl
    have hps : p.data.asString = p := rfl
    rw [GithubCoords.from_app_url, GithubCoords.from_app_urlW, hdata, hm, hos, hrs, hbs, hps]
  · apply String.ext
    simp [String.data_append, List.append_assoc]

/-- Witness for C9 at concrete field values. -/
theorem C9_witness :
    ∃ c : GithubCoords,
      GithubCoords.from_app_url
        ("https://share.streamlit.io/" ++ "user" ++ "/" ++ "repo" ++ "/" ++ "main" ++ "/" ++
          "app" ++ ".py") = .ok c ∧
      "https://share.streamlit.io/" ++ c.owner ++ "/" ++ c.repo ++ "/" ++ c.branch ++ "/" ++
          c.path =
        "https://share.streamlit.io/" ++ "user" ++ "/" ++ "repo" ++ "/" ++ "main" ++ "/" ++
          "app" ++ ".py" :=
  C9_roundtrip "user" "repo" "main" "app" ⟨by decide, by decide⟩ ⟨by decide, by decide⟩
    ⟨by decide, by decide⟩ ⟨by decide, by decide⟩

theorem startsWithSeq_iff {pat : List Char} : ∀ {s : List Char},
    startsWithSeq pat s = true ↔ ∃ post, s = pat ++ post := by
  induction pat with
  | nil =>
    intro s
    simp [startsWithSeq]
  | cons c cs ih =>
    intro s
    cases s with
    | nil => simp [startsWithSeq]
    | cons x xs =>
      by_cases hx : x = c
      · subst hx
        simp [startsWithSeq, ih]
      · simp [startsWithSeq, hx]

theorem containsSeq_iff {pat : List Char} : ∀ {s : List Char},
    containsSeq pat s = true ↔ ∃ pre post, s = pre ++ (pat ++ post) := by
  intro s
  induction s with
  | nil =>
    rw [containsSeq, startsWithSeq_iff]
    constructor
    · rintro ⟨post, h⟩
      exact ⟨[], post, by simpa using h⟩
    · rintro ⟨pre, post, h⟩
      cases pre with
      | nil => exact ⟨post, by simpa using h⟩
      | cons y pre2 => simp at h
  | cons x xs ih =>
    rw [containsSeq, Bool.or_eq_true, startsWithSeq_iff, ih]
    constructor
    · rintro (⟨post, h⟩ | ⟨pre, post, h⟩)
      · exact ⟨[], post, by simpa using h⟩
      · exact ⟨x :: pre, post, by simp [h]⟩
    · rintro ⟨pre, post, h⟩
      cases pre with
      | nil => exact Or.inl ⟨post, by simpa using h⟩
      | cons y pre2 =>
        simp at h
        exact Or.inr ⟨pre2, post, h.2⟩

/-- Claim C6: the badge detector decodes the raw bytes as UTF-8,
failing with DecodingError on invalid input, and on success returns
true exactly when the decoded text contains the literal BADGE_URL as a
contiguous substring. -/
theorem C6_badge_detector (bytes : List Nat) :
    (∀ text, utf8Decode bytes = some text →
      (has_streamlit_badge bytes = .ok true ↔
        ∃ pre post, text = pre ++ (BADGE_URL.data ++ post))) ∧
    (utf8Decode bytes = none → has_streamlit_badge bytes = .error .decodingError) := by
  constructor
  · intro text ht
    rw [has_streamlit_badge, ht]
    rw [show (Except.ok (containsSeq BADGE_URL.data text) :
        Except PyError Bool) = .ok true ↔ containsSeq BADGE_URL.data text = true from
      ⟨fun h => by cases h2 : containsSeq BADGE_URL.data text <;> simp [h2] at h ⊢,
       fun h => by rw [h]⟩]
    exact containsSeq_iff
  · intro ht
    rw [has_streamlit_badge, ht]

/-- Witness for C6: the byte encoding of the badge URL itself decodes
successfully and is detected. -/
theorem C6_witness : has_streamlit_badge (BADGE_URL.data.map Char.toNat) = .ok true :=
  ((C6_badge_detector (BADGE_URL.data.map Char.toNat)).1 BADGE_URL.data rfl).mpr
    ⟨[], [], by simp⟩

/-- Claim C10: for every input url and every value the unreachable rest
of the loop body would compute, the per-row processing of
parse_s4a_apps never produces a badge result; and on every url the
parser accepts it fails precisely with the AttributeError for the
missing attribute get_repo. -/
theorem C10_processRow_never_ok :
    (∀ url badge, ∀ b, processRow url badge ≠ .ok b) ∧
    (∀ url badge c, GithubCoords.from_app_url url = .ok c →
      processRow url badge = .error (.attributeError "get_repo")) := by
  have hattr : getattrCoords "get_repo" = .error (.attributeError "get_repo") := rfl
  constructor
  · intro url badge b h
    cases hm : GithubCoords.from_app_url url with
    | error e => simp [processRow, hm] at h
    | ok c => simp [processRow, hm, hattr] at h
  · intro url badge c hm
    simp [processRow, hm, hattr]

/-- Witness for C10 at a concrete well-formed app url. -/
theorem C10_witness :
    processRow "https://share.streamlit.io/a/b/c/d.py" true =
      .error (.attributeError "get_repo") :=
  C10_processRow_never_ok.2 "https://share.streamlit.io/a/b/c/d.py" true
    ⟨"a", "b", "c", "d.py"⟩ rfl
